import Mathlib

/-
Verification of the gomian circuit-breaker library.

Shallow embedding conventions:
- Go `time.Duration` and `time.Time` values are nanosecond counts, modelled
  as `Nat` (time never flows backwards in the model; a negative elapsed time
  in Go falls into the same early-return branch as elapsed 0 here).
- Go `uint64` counters are modelled as `Nat`; the counters are only ever
  incremented by one per recorded event, so 2^64 wraparound is out of reach
  of any realizable execution and is not modelled.  Where the source
  subtracts (`rotate`), the development proves the subtrahend never exceeds
  the minuend on reachable states, so truncated `Nat` subtraction agrees
  with the exact (and with the Go) value there.
- Go `error` values are compared by identity in the source (`err == ignoredErr`),
  so errors are modelled as an inductive type with decidable equality;
  `none : Option GomianError` stands for Go `nil`.
- Observer callbacks (`Callbacks.NotifyX`) only emit notifications and never
  influence the breaker, so notification is modelled by returning the list
  of emitted events.
- The two `time.AfterFunc` timers are modelled by `Option Nat` fields holding
  the pending deadline; `timer.Stop()`/`= nil` clears the field, re-arming
  overwrites it, and the firing of a pending timer is a separate step
  (`fireOpenTimer` / `fireResetTimer`) that is a no-op when no timer is
  pending and otherwise consumes the one-shot timer and runs its callback.
-/

namespace Gomian

/-- Error values, compared by identity as in Go.  `circuitOpen` models the
package-level `ErrCircuitOpen` sentinel, `canceled` models a context
cancellation error (`context.Canceled`), and `user n` models distinct
application error values returned by wrapped operations. -/
inductive GomianError
  | circuitOpen
  | canceled
  | user (n : Nat)
deriving DecidableEq, Repr

/-- States of the circuit breaker, from state_machine.go (`Closed`, `Open`,
`HalfOpen`). -/
inductive SMState
  | Closed
  | Open
  | HalfOpen
deriving DecidableEq, Repr

/-- StateMachine from state_machine.go: current state plus the timestamp of
the last state change (nanoseconds).  The `onStateChange` hook is a closure
installed by the breaker; at this layer a transition returns the `(from, to)`
pair the hook is invoked with (`none` when the hook is not invoked). -/
structure StateMachine where
  state : SMState
  lastStateChange : Nat
deriving DecidableEq, Repr

/-- StateMachine.TransitionToOpen: no-op returning no hook invocation when the
state is already Open; otherwise set the state and timestamp and invoke the
hook with (old, Open). -/
def StateMachine.TransitionToOpen (sm : StateMachine) (now : Nat) :
    StateMachine × Option (SMState × SMState) :=
  if sm.state = SMState.Open then (sm, none)
  else ({ state := SMState.Open, lastStateChange := now }, some (sm.state, SMState.Open))

/-- StateMachine.TransitionToHalfOpen, same shape as TransitionToOpen. -/
def StateMachine.TransitionToHalfOpen (sm : StateMachine) (now : Nat) :
    StateMachine × Option (SMState × SMState) :=
  if sm.state = SMState.HalfOpen then (sm, none)
  else ({ state := SMState.HalfOpen, lastStateChange := now }, some (sm.state, SMState.HalfOpen))

/-- StateMachine.TransitionToClosed, same shape as TransitionToOpen. -/
def StateMachine.TransitionToClosed (sm : StateMachine) (now : Nat) :
    StateMachine × Option (SMState × SMState) :=
  if sm.state = SMState.Closed then (sm, none)
  else ({ state := SMState.Closed, lastStateChange := now }, some (sm.state, SMState.Closed))

/-- ConsecutiveFailuresThreshold from the threshold strategy file: a single
`Threshold` field. -/
structure ConsecutiveFailuresThreshold where
  Threshold : Nat
deriving DecidableEq, Repr

/-- ConsecutiveFailuresThreshold.ShouldTrip: `failures >= c.Threshold`,
ignoring the other three arguments. -/
def ConsecutiveFailuresThreshold.ShouldTrip (c : ConsecutiveFailuresThreshold)
    (failures _successes _total : Nat) (_window : Nat) : Bool :=
  decide (c.Threshold ≤ failures)

/-- FailureRateThreshold from the threshold strategy file: a float64 `Rate`
and a uint64 `Samples` minimum.  The float64 rate and the float64 division in
`ShouldTrip` are modelled by exact rational arithmetic; at the parameters the
claims exercise (rate 1/2, integer counts of size at most 10, whose quotients
are at distance at least 1/10 from each other) double rounding cannot move a
quotient across the rate, so the model and the Go comparison agree. -/
structure FailureRateThreshold where
  Rate : ℚ
  Samples : Nat
deriving DecidableEq, Repr

/-- FailureRateThreshold.ShouldTrip: `false` when `total < f.Samples`, else
`float64(failures)/float64(total) >= f.Rate` (division modelled exactly over
the rationals; the Go quotient `0/0` is NaN and compares false, while the
rational `0/0` is `0` — the claims never touch `Samples = 0` with `total = 0`). -/
def FailureRateThreshold.ShouldTrip (f : FailureRateThreshold)
    (failures _successes total : Nat) (_window : Nat) : Bool :=
  if total < f.Samples then false
  else decide (f.Rate ≤ (failures : ℚ) / (total : ℚ))

/-- FailureThresholdType: the Go interface has exactly the two implementations
above, modelled as a closed sum. -/
inductive FailureThresholdType
  | consecutive (c : ConsecutiveFailuresThreshold)
  | rate (f : FailureRateThreshold)
deriving DecidableEq, Repr

/-- ConsecutiveCounter from internal/counter: run lengths plus lifetime totals. -/
structure ConsecutiveCounter where
  consecutiveSuccess : Nat
  consecutiveFailure : Nat
  totalSuccess : Nat
  totalFailure : Nat
deriving DecidableEq, Repr

/-- NewConsecutiveCounter: all fields zero. -/
def NewConsecutiveCounter : ConsecutiveCounter :=
  { consecutiveSuccess := 0, consecutiveFailure := 0, totalSuccess := 0, totalFailure := 0 }

/-- ConsecutiveCounter.IncrementSuccess: bump the success run and lifetime
total, zero the failure run. -/
def ConsecutiveCounter.IncrementSuccess (cc : ConsecutiveCounter) : ConsecutiveCounter :=
  { cc with
    consecutiveSuccess := cc.consecutiveSuccess + 1
    consecutiveFailure := 0
    totalSuccess := cc.totalSuccess + 1 }

/-- ConsecutiveCounter.IncrementFailure: bump the failure run and lifetime
total, zero the success run. -/
def ConsecutiveCounter.IncrementFailure (cc : ConsecutiveCounter) : ConsecutiveCounter :=
  { cc with
    consecutiveFailure := cc.consecutiveFailure + 1
    consecutiveSuccess := 0
    totalFailure := cc.totalFailure + 1 }

/-- ConsecutiveCounter.Totals returns (totalSuccess, totalFailure). -/
def ConsecutiveCounter.Totals (cc : ConsecutiveCounter) : Nat × Nat :=
  (cc.totalSuccess, cc.totalFailure)

/-- ConsecutiveCounter.Reset zeroes all four fields. -/
def ConsecutiveCounter.Reset (_cc : ConsecutiveCounter) : ConsecutiveCounter :=
  NewConsecutiveCounter

/-- Operations on a ConsecutiveCounter, for reachability statements. -/
inductive CCOp
  | success
  | failure
  | reset
deriving DecidableEq, Repr

/-- Apply one ConsecutiveCounter operation. -/
def ConsecutiveCounter.applyOp (cc : ConsecutiveCounter) : CCOp → ConsecutiveCounter
  | CCOp.success => cc.IncrementSuccess
  | CCOp.failure => cc.IncrementFailure
  | CCOp.reset => cc.Reset

/-- Run a list of ConsecutiveCounter operations from a starting counter. -/
def ConsecutiveCounter.run (cc : ConsecutiveCounter) (ops : List CCOp) : ConsecutiveCounter :=
  ops.foldl ConsecutiveCounter.applyOp cc

/-- The mutual-exclusion invariant of the consecutive counter. -/
def ConsecutiveCounter.Exclusive (cc : ConsecutiveCounter) : Prop :=
  cc.consecutiveSuccess = 0 ∨ cc.consecutiveFailure = 0

/-- One time bucket of the rolling window: request and failure counts. -/
structure Bucket where
  requests : Nat
  failures : Nat
deriving DecidableEq, Repr

/-- One millisecond in nanoseconds (`time.Millisecond`), the lower clamp for
the bucket size. -/
def millisecond : Nat := 1000000

/-- RollingWindow from internal/counter: a slice of buckets, the bucket and
window durations, the rotation anchor, and the running totals. -/
structure RollingWindow where
  buckets : List Bucket
  bucketSize : Nat
  numBuckets : Nat
  windowSize : Nat
  lastRotation : Nat
  totalRequests : Nat
  totalFailures : Nat
deriving DecidableEq, Repr

/-- NewRollingWindow: default the bucket count to 10 when the caller passes a
non-positive value, set the bucket size to `windowSize / numBuckets` clamped
below by one millisecond, and start with zeroed buckets and totals. -/
def NewRollingWindow (windowSize : Nat) (numBuckets : Int) (now : Nat) : RollingWindow :=
  let n : Nat := if numBuckets ≤ 0 then 10 else numBuckets.toNat
  let bs := windowSize / n
  let bucketSize := if bs < millisecond then millisecond else bs
  { buckets := List.replicate n (Bucket.mk 0 0)
    bucketSize := bucketSize
    numBuckets := n
    windowSize := windowSize
    lastRotation := now
    totalRequests := 0
    totalFailures := 0 }

/-- One loop iteration of `rotate`: subtract the counts of the bucket at
`idx` from the running totals and zero that bucket. -/
def RollingWindow.evictOne (rw : RollingWindow) (idx : Nat) : RollingWindow :=
  let b := rw.buckets.getD idx (Bucket.mk 0 0)
  { rw with
    totalRequests := rw.totalRequests - b.requests
    totalFailures := rw.totalFailures - b.failures
    buckets := rw.buckets.set idx (Bucket.mk 0 0) }

/-- The eviction loop of `rotate`, as a fold over the list of evicted
indices. -/
def RollingWindow.evictList (rw : RollingWindow) (idxs : List Nat) : RollingWindow :=
  idxs.foldl RollingWindow.evictOne rw

/-- RollingWindow.rotate: no-op when less than one bucket duration elapsed
since the last rotation; otherwise evict, for `i` from 0 below the number of
whole bucket durations elapsed (capped at `numBuckets`), the bucket at index
`(i + 1) % numBuckets`, then advance the rotation anchor keeping the
remainder (`lastRotation = now - elapsed % bucketSize`). -/
def RollingWindow.rotate (rw : RollingWindow) (now : Nat) : RollingWindow :=
  let elapsed := now - rw.lastRotation
  if elapsed < rw.bucketSize then rw
  else
    let bucketsToRotate := min (elapsed / rw.bucketSize) rw.numBuckets
    let rw1 := rw.evictList ((List.range bucketsToRotate).map (fun i => (i + 1) % rw.numBuckets))
    { rw1 with lastRotation := now - elapsed % rw.bucketSize }

/-- RollingWindow.IncrementSuccess: rotate, then bump the request count of
bucket 0 (the source always writes to index 0) and the total request count. -/
def RollingWindow.IncrementSuccess (rw : RollingWindow) (now : Nat) : RollingWindow :=
  let rw := rw.rotate now
  let b := rw.buckets.getD 0 (Bucket.mk 0 0)
  { rw with
    buckets := rw.buckets.set 0 (Bucket.mk (b.requests + 1) b.failures)
    totalRequests := rw.totalRequests + 1 }

/-- RollingWindow.IncrementFailure: rotate, then bump the request and failure
counts of bucket 0 and both running totals. -/
def RollingWindow.IncrementFailure (rw : RollingWindow) (now : Nat) : RollingWindow :=
  let rw := rw.rotate now
  let b := rw.buckets.getD 0 (Bucket.mk 0 0)
  { rw with
    buckets := rw.buckets.set 0 (Bucket.mk (b.requests + 1) (b.failures + 1))
    totalRequests := rw.totalRequests + 1
    totalFailures := rw.totalFailures + 1 }

/-- RollingWindow.Counts: rotate, then return the (mutated) window together
with the pair (totalRequests, totalFailures). -/
def RollingWindow.Counts (rw : RollingWindow) (now : Nat) : RollingWindow × Nat × Nat :=
  let rw := rw.rotate now
  (rw, rw.totalRequests, rw.totalFailures)

/-- RollingWindow.Reset: zero every bucket and both totals and move the
rotation anchor to now. -/
def RollingWindow.Reset (rw : RollingWindow) (now : Nat) : RollingWindow :=
  { rw with
    buckets := rw.buckets.map (fun _ => Bucket.mk 0 0)
    totalRequests := 0
    totalFailures := 0
    lastRotation := now }

/-- Operations on a RollingWindow, each carrying the wall-clock time
(nanoseconds) at which it runs; `observe` is a `Counts` call (it rotates and
returns the totals). -/
inductive RWOp
  | incSuccess (now : Nat)
  | incFailure (now : Nat)
  | observe (now : Nat)
  | reset (now : Nat)
deriving DecidableEq, Repr

/-- Apply one RollingWindow operation (keeping the mutated window). -/
def RollingWindow.applyOp (rw : RollingWindow) : RWOp → RollingWindow
  | RWOp.incSuccess now => rw.IncrementSuccess now
  | RWOp.incFailure now => rw.IncrementFailure now
  | RWOp.observe now => (rw.Counts now).1
  | RWOp.reset now => rw.Reset now

/-- Run a list of RollingWindow operations from a starting window. -/
def RollingWindow.run (rw : RollingWindow) (ops : List RWOp) : RollingWindow :=
  ops.foldl RollingWindow.applyOp rw

/-- Sum of the per-bucket request counts. -/
def sumRequests (bs : List Bucket) : Nat := (bs.map Bucket.requests).sum

/-- Sum of the per-bucket failure counts. -/
def sumFailures (bs : List Bucket) : Nat := (bs.map Bucket.failures).sum

/-- The structural invariant of a rolling window: the bucket slice has the
declared positive length, the bucket size is positive, the running totals are
exactly the sums over the buckets, and no bucket records more failures than
requests. -/
def RollingWindow.Inv (rw : RollingWindow) : Prop :=
  rw.buckets.length = rw.numBuckets
  ∧ 0 < rw.numBuckets
  ∧ 0 < rw.bucketSize
  ∧ rw.totalRequests = sumRequests rw.buckets
  ∧ rw.totalFailures = sumFailures rw.buckets
  ∧ ∀ b ∈ rw.buckets, b.failures ≤ b.requests

/-- Settings for a CircuitBreaker (configuration snapshot).  `IsFailure` is
the optional custom failure predicate (receiving the, possibly nil, error);
`IgnoredErrors` is the identity-matched ignore list. -/
structure Settings where
  Name : String
  FailureThreshold : FailureThresholdType
  SuccessThreshold : Nat
  Timeout : Nat
  RollingWindow : Nat
  MinimumRequestVolume : Nat
  ResetTimeout : Nat
  IsFailure : Option (Option GomianError → Bool)
  IgnoredErrors : List (Option GomianError)

/-- Notifications emitted to the registered observers, in emission order.
`stateChange fromS toS` is NotifyStateChange, `trip` NotifyTrip (carrying the
triggering error, or nothing when fired from the state-change hook), `reset`
NotifyReset, `success` NotifySuccess, `failure` NotifyFailure, `rejection`
NotifyRejection. -/
inductive Event
  | stateChange (fromS toS : SMState)
  | trip (err : Option GomianError)
  | reset
  | success
  | failure (err : GomianError)
  | rejection
deriving DecidableEq, Repr

/-- CircuitBreaker: the engine state.  The two `time.AfterFunc` timers are the
`Option Nat` deadline fields (`none` = no pending timer). -/
structure CircuitBreaker where
  name : String
  settings : Settings
  stateMachine : StateMachine
  rollingWindow : Option RollingWindow
  consecutiveCounter : ConsecutiveCounter
  openTimer : Option Nat
  resetTimer : Option Nat

/-- startOpenStateTimer: replace any pending open timer with one due after
the configured Timeout. -/
def CircuitBreaker.startOpenStateTimer (cb : CircuitBreaker) (now : Nat) : CircuitBreaker :=
  { cb with openTimer := some (now + cb.settings.Timeout) }

/-- startResetTimer: replace any pending reset timer with one due after the
configured ResetTimeout. -/
def CircuitBreaker.startResetTimer (cb : CircuitBreaker) (now : Nat) : CircuitBreaker :=
  { cb with resetTimer := some (now + cb.settings.ResetTimeout) }

/-- The transition hook installed by NewCircuitBreaker: notify the state
change, additionally notify trip on Closed→Open and reset on
{Open, HalfOpen}→Closed, then start the open timer on entering Open, or the
reset timer on entering Closed when a reset timeout is configured. -/
def CircuitBreaker.onStateChange (cb : CircuitBreaker) (fromS toS : SMState) (now : Nat) :
    CircuitBreaker × List Event :=
  let events := [Event.stateChange fromS toS]
  let events := events ++
    (if fromS = SMState.Closed ∧ toS = SMState.Open then [Event.trip none]
     else if (fromS = SMState.Open ∨ fromS = SMState.HalfOpen) ∧ toS = SMState.Closed then
       [Event.reset]
     else [])
  let cb :=
    if toS = SMState.Open then cb.startOpenStateTimer now
    else if toS = SMState.Closed ∧ cb.settings.ResetTimeout > 0 then cb.startResetTimer now
    else cb
  (cb, events)

/-- Breaker-level TransitionToOpen: apply the state-machine transition, then
run the hook when it was invoked. -/
def CircuitBreaker.transitionToOpen (cb : CircuitBreaker) (now : Nat) :
    CircuitBreaker × List Event :=
  match cb.stateMachine.TransitionToOpen now with
  | (sm, none) => ({ cb with stateMachine := sm }, [])
  | (sm, some (f, t)) => CircuitBreaker.onStateChange { cb with stateMachine := sm } f t now

/-- Breaker-level TransitionToHalfOpen. -/
def CircuitBreaker.transitionToHalfOpen (cb : CircuitBreaker) (now : Nat) :
    CircuitBreaker × List Event :=
  match cb.stateMachine.TransitionToHalfOpen now with
  | (sm, none) => ({ cb with stateMachine := sm }, [])
  | (sm, some (f, t)) => CircuitBreaker.onStateChange { cb with stateMachine := sm } f t now

/-- Breaker-level TransitionToClosed. -/
def CircuitBreaker.transitionToClosed (cb : CircuitBreaker) (now : Nat) :
    CircuitBreaker × List Event :=
  match cb.stateMachine.TransitionToClosed now with
  | (sm, none) => ({ cb with stateMachine := sm }, [])
  | (sm, some (f, t)) => CircuitBreaker.onStateChange { cb with stateMachine := sm } f t now

/-- NewCircuitBreaker: normalize a blank name to "default", allocate the
rolling window only for a rate-based threshold (with 10 buckets), start
Closed, and arm the reset timer at construction when a reset timeout is
configured. -/
def NewCircuitBreaker (settings : Settings) (now : Nat) : CircuitBreaker :=
  let settings := if settings.Name = "" then { settings with Name := "default" } else settings
  let rollingWindow :=
    match settings.FailureThreshold with
    | FailureThresholdType.rate _ => some (NewRollingWindow settings.RollingWindow 10 now)
    | _ => none
  let cb : CircuitBreaker :=
    { name := settings.Name
      settings := settings
      stateMachine := { state := SMState.Closed, lastStateChange := now }
      rollingWindow := rollingWindow
      consecutiveCounter := NewConsecutiveCounter
      openTimer := none
      resetTimer := none }
  if cb.settings.ResetTimeout > 0 then cb.startResetTimer now else cb

/-- CircuitBreaker.isFailure: the custom predicate's verdict when one is
configured; otherwise false for an error in the ignored list (identity
match), else failure iff the error is non-nil. -/
def CircuitBreaker.isFailure (cb : CircuitBreaker) (err : Option GomianError) : Bool :=
  match cb.settings.IsFailure with
  | some pred => pred err
  | none =>
    if cb.settings.IgnoredErrors.contains err then false
    else err.isSome

/-- recordSuccess: notify success, update both counters, and when HalfOpen
with the success run at or above SuccessThreshold: transition to Closed,
reset both counters, and re-arm the reset timer if configured. -/
def CircuitBreaker.recordSuccess (cb : CircuitBreaker) (now : Nat) :
    CircuitBreaker × List Event :=
  let events := [Event.success]
  let cb : CircuitBreaker := { cb with
    consecutiveCounter := cb.consecutiveCounter.IncrementSuccess
    rollingWindow := cb.rollingWindow.map (fun rw => rw.IncrementSuccess now) }
  if cb.stateMachine.state = SMState.HalfOpen ∧
      cb.settings.SuccessThreshold ≤ cb.consecutiveCounter.consecutiveSuccess then
    let p := cb.transitionToClosed now
    let cb := { p.1 with
      consecutiveCounter := p.1.consecutiveCounter.Reset
      rollingWindow := p.1.rollingWindow.map (fun rw => rw.Reset now) }
    let cb := if cb.settings.ResetTimeout > 0 then cb.startResetTimer now else cb
    (cb, events ++ p.2)
  else (cb, events)

/-- recordFailure: notify failure, update both counters; when HalfOpen,
transition to Open unconditionally; when Closed, evaluate the threshold
(consecutive count, or window counts gated by MinimumRequestVolume) and on a
trip transition to Open and notify trip with the triggering error. -/
def CircuitBreaker.recordFailure (cb : CircuitBreaker) (err : GomianError) (now : Nat) :
    CircuitBreaker × List Event :=
  let events := [Event.failure err]
  let cb : CircuitBreaker := { cb with
    consecutiveCounter := cb.consecutiveCounter.IncrementFailure
    rollingWindow := cb.rollingWindow.map (fun rw => rw.IncrementFailure now) }
  if cb.stateMachine.state = SMState.HalfOpen then
    let p := cb.transitionToOpen now
    (p.1, events ++ p.2)
  else if cb.stateMachine.state = SMState.Closed then
    let q : CircuitBreaker × Bool :=
      match cb.settings.FailureThreshold with
      | FailureThresholdType.consecutive c =>
        (cb, decide (c.Threshold ≤ cb.consecutiveCounter.consecutiveFailure))
      | FailureThresholdType.rate f =>
        match cb.rollingWindow with
        | some rw =>
          let r := rw.Counts now
          let cb := { cb with rollingWindow := some r.1 }
          if cb.settings.MinimumRequestVolume ≤ r.2.1 then
            (cb, f.ShouldTrip r.2.2 0 r.2.1 cb.settings.RollingWindow)
          else (cb, false)
        | none => (cb, false)
    if q.2 then
      let p := q.1.transitionToOpen now
      (p.1, events ++ p.2 ++ [Event.trip (some err)])
    else (q.1, events)
  else (cb, events)

/-- The outcome of one Execute/ExecuteContext call: the breaker afterwards,
the returned error (none = nil), the notifications emitted, and whether the
wrapped operation was invoked. -/
structure ExecOutcome where
  cb : CircuitBreaker
  result : Option GomianError
  events : List Event
  opInvoked : Bool

/-- ExecuteContext: return the context's error when it is already canceled
(operation not invoked); reject with ErrCircuitOpen when Open (operation not
invoked); otherwise invoke the operation (its returned error is the
`opResult` parameter, none meaning nil) and record failure (when classified
as one) or success.  The HalfOpen execution lock serializes concurrent calls
and has no effect in this sequential model. -/
def CircuitBreaker.ExecuteContext (cb : CircuitBreaker) (ctxErr : Option GomianError)
    (opResult : Option GomianError) (now : Nat) : ExecOutcome :=
  if ctxErr.isSome then { cb := cb, result := ctxErr, events := [], opInvoked := false }
  else if cb.stateMachine.state = SMState.Open then
    { cb := cb, result := some GomianError.circuitOpen, events := [Event.rejection],
      opInvoked := false }
  else
    match opResult with
    | some err =>
      if cb.isFailure (some err) then
        let p := cb.recordFailure err now
        { cb := p.1, result := some err, events := p.2, opInvoked := true }
      else
        { cb := cb, result := some err, events := [], opInvoked := true }
    | none =>
      let p := cb.recordSuccess now
      { cb := p.1, result := none, events := p.2, opInvoked := true }

/-- Execute: ExecuteContext with the background context, whose Err() is
always nil. -/
def CircuitBreaker.Execute (cb : CircuitBreaker) (opResult : Option GomianError) (now : Nat) :
    ExecOutcome :=
  cb.ExecuteContext none opResult now

/-- Metrics snapshot returned by GetMetrics. -/
structure Metrics where
  Name : String
  State : SMState
  TotalRequests : Nat
  TotalFailures : Nat
  ConsecutiveFailures : Nat
  ConsecutiveSuccesses : Nat
  LastStateChange : Nat
  TimeInState : Nat
deriving DecidableEq, Repr

/-- GetMetrics: totals from the rolling window when present, else the
consecutive counter's lifetime totals (successes, failures); plus the run
lengths and the state-machine timing.  The Go `Counts()` call also rotates
the window in place; this model returns only the snapshot, which is all the
claims about GetMetrics concern. -/
def CircuitBreaker.GetMetrics (cb : CircuitBreaker) (now : Nat) : Metrics :=
  let totals :=
    match cb.rollingWindow with
    | some rw => (rw.Counts now).2
    | none => cb.consecutiveCounter.Totals
  { Name := cb.name
    State := cb.stateMachine.state
    TotalRequests := totals.1
    TotalFailures := totals.2
    ConsecutiveFailures := cb.consecutiveCounter.consecutiveFailure
    ConsecutiveSuccesses := cb.consecutiveCounter.consecutiveSuccess
    LastStateChange := cb.stateMachine.lastStateChange
    TimeInState := now - cb.stateMachine.lastStateChange }

/-- CircuitBreaker.Close: stop and drop both timers (nothing else is
touched). -/
def CircuitBreaker.Close (cb : CircuitBreaker) : CircuitBreaker :=
  { cb with openTimer := none, resetTimer := none }

/-- Firing of the open-state timer: a no-op when no timer is pending;
otherwise the one-shot timer is consumed and its callback transitions the
state machine to HalfOpen. -/
def CircuitBreaker.fireOpenTimer (cb : CircuitBreaker) (now : Nat) :
    CircuitBreaker × List Event :=
  match cb.openTimer with
  | none => (cb, [])
  | some _ => CircuitBreaker.transitionToHalfOpen { cb with openTimer := none } now

/-- Firing of the reset timer: a no-op when no timer is pending; otherwise
the one-shot timer is consumed and its callback resets both counters if the
breaker is still Closed. -/
def CircuitBreaker.fireResetTimer (cb : CircuitBreaker) (now : Nat) : CircuitBreaker :=
  match cb.resetTimer with
  | none => cb
  | some _ =>
    let cb := { cb with resetTimer := none }
    if cb.stateMachine.state = SMState.Closed then
      { cb with
        consecutiveCounter := cb.consecutiveCounter.Reset
        rollingWindow := cb.rollingWindow.map (fun rw => rw.Reset now) }
    else cb

/-- Concrete settings: consecutive-failures threshold 1, success threshold 1,
open timeout 100 ns, no reset timeout, default failure classification. -/
def settingsOne : Settings :=
  { Name := "t"
    FailureThreshold := FailureThresholdType.consecutive (ConsecutiveFailuresThreshold.mk 1)
    SuccessThreshold := 1
    Timeout := 100
    RollingWindow := 0
    MinimumRequestVolume := 0
    ResetTimeout := 0
    IsFailure := none
    IgnoredErrors := [] }

/-- A breaker driven into the Open state: one failing call against
`settingsOne` trips it. -/
def openBreaker : CircuitBreaker :=
  ((NewCircuitBreaker settingsOne 0).ExecuteContext none (some (GomianError.user 7)) 10).cb

/-- Concrete settings with a high consecutive threshold and `user 3` on the
ignored-errors list. -/
def settingsIgnore : Settings :=
  { settingsOne with
    FailureThreshold := FailureThresholdType.consecutive (ConsecutiveFailuresThreshold.mk 5)
    IgnoredErrors := [some (GomianError.user 3)] }

/-- A fresh breaker over `settingsIgnore`. -/
def ignoreBreaker : CircuitBreaker := NewCircuitBreaker settingsIgnore 0

/-- `ignoreBreaker` after two counted failures (still Closed: 2 < 5). -/
def closedTwoFailures : CircuitBreaker :=
  ((ignoreBreaker.ExecuteContext none (some (GomianError.user 9)) 1).cb.ExecuteContext
    none (some (GomianError.user 9)) 2).cb

/-- A breaker that is shut down (Close) and then tripped by a failing call,
which re-arms the open-state timer. -/
def closeThenTrip : CircuitBreaker :=
  ((NewCircuitBreaker settingsOne 0).Close.ExecuteContext
    none (some (GomianError.user 7)) 10).cb

/-- A 100 ms window with 2 buckets (bucket size 50 ms): one failure recorded
at time 0, followed by Counts observations at 50 ms and 100 ms, each of which
rotates one bucket — always evicting index 1, never index 0 where the data
lives. -/
def staleWindow : RollingWindow :=
  (NewRollingWindow 100000000 2 0).run
    [RWOp.incFailure 0, RWOp.observe 50000000, RWOp.observe 100000000]

/-- A 5 ms window with 10 buckets: the bucket size 5 ms / 10 = 0.5 ms is
clamped up to 1 ms, so ten bucket durations (10 ms) exceed the window. One
failure is recorded at time 0. -/
def clampedWindow : RollingWindow :=
  (NewRollingWindow 5000000 10 0).IncrementFailure 0

end Gomian

namespace Gomian

lemma ConsecutiveCounter.exclusive_applyOp (cc : ConsecutiveCounter) (op : CCOp) :
    (cc.applyOp op).Exclusive := by
  cases op <;>
    simp [ConsecutiveCounter.applyOp, ConsecutiveCounter.Exclusive,
      ConsecutiveCounter.IncrementSuccess, ConsecutiveCounter.IncrementFailure,
      ConsecutiveCounter.Reset, NewConsecutiveCounter]

lemma ConsecutiveCounter.exclusive_run (cc : ConsecutiveCounter) (ops : List CCOp)
    (h : cc.Exclusive) : (cc.run ops).Exclusive := by
  induction ops generalizing cc with
  | nil => exact h
  | cons op rest ih =>
    exact ih (cc.applyOp op) (ConsecutiveCounter.exclusive_applyOp cc op)

end Gomian

/-- C5: `ConsecutiveFailuresThreshold(n).ShouldTrip(failures, successes, total,
window)` is true iff `failures ≥ n`, for every `n` and all argument values
(the other three arguments are ignored); in particular for `n = 3` it is true
at `failures ∈ {3, 4}` and false at `failures ∈ {0, 1, 2}`. -/
theorem Gomian.consecutive_threshold_should_trip_iff :
    (∀ (n failures successes total window : Nat),
      (Gomian.ConsecutiveFailuresThreshold.mk n).ShouldTrip failures successes total window
        = decide (n ≤ failures))
    ∧ (∀ successes total window : Nat,
      ((Gomian.ConsecutiveFailuresThreshold.mk 3).ShouldTrip 0 successes total window = false)
      ∧ ((Gomian.ConsecutiveFailuresThreshold.mk 3).ShouldTrip 1 successes total window = false)
      ∧ ((Gomian.ConsecutiveFailuresThreshold.mk 3).ShouldTrip 2 successes total window = false)
      ∧ ((Gomian.ConsecutiveFailuresThreshold.mk 3).ShouldTrip 3 successes total window = true)
      ∧ ((Gomian.ConsecutiveFailuresThreshold.mk 3).ShouldTrip 4 successes total window = true)) := by
  constructor
  · intro n failures successes total window
    rfl
  · intro successes total window
    refine ⟨rfl, rfl, rfl, rfl, rfl⟩

/-- C8: `ConsecutiveCounter.IncrementSuccess` sets consecutiveSuccesses += 1,
consecutiveFailures := 0, totalSuccesses += 1; `IncrementFailure` is
symmetric; `Reset` zeroes all four fields; and every state reachable from the
fresh counter by any sequence of these operations has at most one of the two
consecutive fields nonzero. -/
theorem Gomian.consecutive_counter_ops_and_exclusivity :
    (∀ cc : Gomian.ConsecutiveCounter,
      cc.IncrementSuccess =
        { consecutiveSuccess := cc.consecutiveSuccess + 1
          consecutiveFailure := 0
          totalSuccess := cc.totalSuccess + 1
          totalFailure := cc.totalFailure })
    ∧ (∀ cc : Gomian.ConsecutiveCounter,
      cc.IncrementFailure =
        { consecutiveSuccess := 0
          consecutiveFailure := cc.consecutiveFailure + 1
          totalSuccess := cc.totalSuccess
          totalFailure := cc.totalFailure + 1 })
    ∧ (∀ cc : Gomian.ConsecutiveCounter,
      cc.Reset =
        { consecutiveSuccess := 0, consecutiveFailure := 0,
          totalSuccess := 0, totalFailure := 0 })
    ∧ (∀ ops : List Gomian.CCOp,
      (Gomian.NewConsecutiveCounter.run ops).consecutiveSuccess = 0
      ∨ (Gomian.NewConsecutiveCounter.run ops).consecutiveFailure = 0) := by
  refine ⟨fun cc => rfl, fun cc => rfl, fun cc => rfl, fun ops => ?_⟩
  exact Gomian.ConsecutiveCounter.exclusive_run Gomian.NewConsecutiveCounter ops (Or.inl rfl)

/-- C9: for every StateMachine, a transition whose target equals the current
state is a no-op — the state and `lastStateChange` are unchanged and the
transition hook is not invoked — for each of TransitionToOpen,
TransitionToHalfOpen and TransitionToClosed. -/
theorem Gomian.state_machine_self_transition_noop (sm : Gomian.StateMachine) (now : Nat) :
    (sm.state = Gomian.SMState.Open → sm.TransitionToOpen now = (sm, none))
    ∧ (sm.state = Gomian.SMState.HalfOpen → sm.TransitionToHalfOpen now = (sm, none))
    ∧ (sm.state = Gomian.SMState.Closed → sm.TransitionToClosed now = (sm, none)) := by
  refine ⟨fun h => ?_, fun h => ?_, fun h => ?_⟩ <;>
    simp [Gomian.StateMachine.TransitionToOpen, Gomian.StateMachine.TransitionToHalfOpen,
      Gomian.StateMachine.TransitionToClosed, h]

/-- C9 witness: instantiated at the Open state with timestamp 7, transitioning
to Open at time 42 is a no-op. -/
theorem Gomian.state_machine_self_transition_noop_witness :
    (Gomian.StateMachine.mk Gomian.SMState.Open 7).state = Gomian.SMState.Open
    ∧ (Gomian.StateMachine.mk Gomian.SMState.Open 7).TransitionToOpen 42
        = (Gomian.StateMachine.mk Gomian.SMState.Open 7, none) :=
  ⟨rfl, (Gomian.state_machine_self_transition_noop
      (Gomian.StateMachine.mk Gomian.SMState.Open 7) 42).1 rfl⟩

/-- C1 counterexample: `openBreaker` is Open, yet an ExecuteContext call whose
context is already canceled returns the cancellation error (not the
circuit-open error) and emits no rejection notification, so the claim does
not hold for every call. -/
theorem Gomian.open_rejection_counterexample :
    Gomian.openBreaker.stateMachine.state = Gomian.SMState.Open
    ∧ (Gomian.openBreaker.ExecuteContext (some Gomian.GomianError.canceled) none 20).result
        = some Gomian.GomianError.canceled
    ∧ (Gomian.openBreaker.ExecuteContext (some Gomian.GomianError.canceled) none 20).result
        ≠ some Gomian.GomianError.circuitOpen
    ∧ (Gomian.openBreaker.ExecuteContext (some Gomian.GomianError.canceled) none 20).events
        = [] := by
  refine ⟨rfl, rfl, by decide, rfl⟩

/-- C1 (amended): for every breaker in the Open state, every
Execute/ExecuteContext call whose context is not already canceled notifies
the rejected observers, returns the circuit-open error, never invokes the
wrapped operation, and leaves the breaker unchanged; for Execute (background
context) the proviso always holds. -/
theorem Gomian.open_state_rejects (cb : Gomian.CircuitBreaker)
    (opResult : Option Gomian.GomianError) (now : Nat)
    (h : cb.stateMachine.state = Gomian.SMState.Open) :
    (∀ ctxErr, ctxErr = none →
      cb.ExecuteContext ctxErr opResult now
        = { cb := cb, result := some Gomian.GomianError.circuitOpen,
            events := [Gomian.Event.rejection], opInvoked := false })
    ∧ cb.Execute opResult now
        = { cb := cb, result := some Gomian.GomianError.circuitOpen,
            events := [Gomian.Event.rejection], opInvoked := false } := by
  constructor
  · rintro _ rfl
    simp [Gomian.CircuitBreaker.ExecuteContext, h]
  · simp [Gomian.CircuitBreaker.Execute, Gomian.CircuitBreaker.ExecuteContext, h]

/-- C1 witness: instantiated at `openBreaker` with a failing operation at
time 20. -/
theorem Gomian.open_state_rejects_witness :
    Gomian.openBreaker.stateMachine.state = Gomian.SMState.Open
    ∧ Gomian.openBreaker.Execute (some (Gomian.GomianError.user 8)) 20
        = { cb := Gomian.openBreaker, result := some Gomian.GomianError.circuitOpen,
            events := [Gomian.Event.rejection], opInvoked := false } :=
  ⟨rfl, (Gomian.open_state_rejects Gomian.openBreaker (some (Gomian.GomianError.user 8)) 20 rfl).2⟩

/-- C3 counterexample: after Close, a single failing Execute trips the
breaker and re-arms the open-state timer (deadline 110), and that timer's
firing then drives an automatic transition to HalfOpen — so timer-driven
transitions can occur after Close, contrary to the claim. -/
theorem Gomian.close_rearm_counterexample :
    Gomian.closeThenTrip.openTimer = some 110
    ∧ Gomian.closeThenTrip.stateMachine.state = Gomian.SMState.Open
    ∧ (Gomian.closeThenTrip.fireOpenTimer 110).1.stateMachine.state
        = Gomian.SMState.HalfOpen := by
  refine ⟨rfl, rfl, rfl⟩

/-- C3 (amended): Close cancels both currently pending timers (and the
canceled timers never fire: firing is a no-op on the closed breaker), Close
is idempotent, and it is safe in any state — it leaves the state machine and
both counters untouched.  However, a later Execute that re-enters Open (or
Closed with a reset timeout) arms a fresh timer, so timer-driven transitions
can occur again. -/
theorem Gomian.close_cancels_timers (cb : Gomian.CircuitBreaker) (now : Nat) :
    cb.Close.openTimer = none
    ∧ cb.Close.resetTimer = none
    ∧ cb.Close.Close = cb.Close
    ∧ cb.Close.stateMachine = cb.stateMachine
    ∧ cb.Close.consecutiveCounter = cb.consecutiveCounter
    ∧ cb.Close.rollingWindow = cb.rollingWindow
    ∧ cb.Close.fireOpenTimer now = (cb.Close, [])
    ∧ cb.Close.fireResetTimer now = cb.Close := by
  refine ⟨rfl, rfl, rfl, rfl, rfl, rfl, rfl, rfl⟩

/-- C4: an error classified as a non-failure (per `isFailure`: it is on the
ignored list with no custom predicate set, or the custom predicate rejects
it) is returned to the caller unchanged by an admitted Execute/ExecuteContext
call (context not canceled, state not Open — otherwise the operation never
runs and no such error can occur), with the whole breaker, in particular both
counters and the state, unchanged and no notification emitted; consequently
any number of such calls leaves the breaker unchanged. -/
theorem Gomian.nonfailure_returned_unchanged :
    (∀ (cb : Gomian.CircuitBreaker) (e : Gomian.GomianError) (now : Nat),
      cb.isFailure (some e) = false →
      cb.stateMachine.state ≠ Gomian.SMState.Open →
      cb.ExecuteContext none (some e) now
        = { cb := cb, result := some e, events := [], opInvoked := true })
    ∧ (∀ (cb : Gomian.CircuitBreaker) (calls : List (Gomian.GomianError × Nat)),
      (∀ p ∈ calls, cb.isFailure (some p.1) = false) →
      cb.stateMachine.state ≠ Gomian.SMState.Open →
      calls.foldl (fun c p => (c.ExecuteContext none (some p.1) p.2).cb) cb = cb) := by
  have single : ∀ (cb : Gomian.CircuitBreaker) (e : Gomian.GomianError) (now : Nat),
      cb.isFailure (some e) = false →
      cb.stateMachine.state ≠ Gomian.SMState.Open →
      cb.ExecuteContext none (some e) now
        = { cb := cb, result := some e, events := [], opInvoked := true } := by
    intro cb e now hclass hstate
    simp [Gomian.CircuitBreaker.ExecuteContext, hclass, hstate]
  refine ⟨single, ?_⟩
  intro cb calls hclass hstate
  induction calls with
  | nil => rfl
  | cons p rest ih =>
    have hcb : (cb.ExecuteContext none (some p.1) p.2).cb = cb := by
      rw [single cb p.1 p.2 (hclass p (List.mem_cons_self p rest)) hstate]
    simpa [hcb] using ih (fun q hq => hclass q (List.mem_cons_of_mem p hq))

/-- C4 witness: `ignoreBreaker` classifies `user 3` as a non-failure and a
call returning it leaves the breaker unchanged; three consecutive such calls
leave it unchanged too. -/
theorem Gomian.nonfailure_returned_unchanged_witness :
    Gomian.ignoreBreaker.isFailure (some (Gomian.GomianError.user 3)) = false
    ∧ Gomian.ignoreBreaker.stateMachine.state ≠ Gomian.SMState.Open
    ∧ Gomian.ignoreBreaker.ExecuteContext none (some (Gomian.GomianError.user 3)) 4
        = { cb := Gomian.ignoreBreaker, result := some (Gomian.GomianError.user 3),
            events := [], opInvoked := true }
    ∧ ([(Gomian.GomianError.user 3, 4), (Gomian.GomianError.user 3, 5),
        (Gomian.GomianError.user 3, 6)].foldl
        (fun c p => (Gomian.CircuitBreaker.ExecuteContext c none (some p.1) p.2).cb)
        Gomian.ignoreBreaker) = Gomian.ignoreBreaker := by
  have hstate : Gomian.ignoreBreaker.stateMachine.state ≠ Gomian.SMState.Open := by decide
  refine ⟨rfl, hstate, ?_, ?_⟩
  · exact Gomian.nonfailure_returned_unchanged.1 Gomian.ignoreBreaker
      (Gomian.GomianError.user 3) 4 rfl hstate
  · exact Gomian.nonfailure_returned_unchanged.2 Gomian.ignoreBreaker _ (by decide) hstate

/-- C10: when the breaker has no rolling window (its policy is not
rate-based), GetMetrics reports TotalRequests as the consecutive counter's
lifetime success total and TotalFailures as its lifetime failure total, so
TotalRequests counts only successful outcomes and can be smaller than
TotalFailures, as on `closedTwoFailures` (0 requests versus 2 failures). -/
theorem Gomian.metrics_totals_without_window :
    (∀ (cb : Gomian.CircuitBreaker) (now : Nat), cb.rollingWindow = none →
      (cb.GetMetrics now).TotalRequests = cb.consecutiveCounter.totalSuccess
      ∧ (cb.GetMetrics now).TotalFailures = cb.consecutiveCounter.totalFailure)
    ∧ Gomian.closedTwoFailures.rollingWindow = none
    ∧ (Gomian.closedTwoFailures.GetMetrics 5).TotalRequests = 0
    ∧ (Gomian.closedTwoFailures.GetMetrics 5).TotalFailures = 2
    ∧ (Gomian.closedTwoFailures.GetMetrics 5).TotalRequests
        < (Gomian.closedTwoFailures.GetMetrics 5).TotalFailures := by
  refine ⟨?_, rfl, rfl, rfl, by decide⟩
  intro cb now h
  constructor <;> simp [Gomian.CircuitBreaker.GetMetrics, h, Gomian.ConsecutiveCounter.Totals]

/-- C10 witness: the first component instantiated at `closedTwoFailures`. -/
theorem Gomian.metrics_totals_without_window_witness :
    Gomian.closedTwoFailures.rollingWindow = none
    ∧ (Gomian.closedTwoFailures.GetMetrics 5).TotalRequests
        = Gomian.closedTwoFailures.consecutiveCounter.totalSuccess
    ∧ (Gomian.closedTwoFailures.GetMetrics 5).TotalFailures
        = Gomian.closedTwoFailures.consecutiveCounter.totalFailure :=
  ⟨rfl, (Gomian.metrics_totals_without_window.1 Gomian.closedTwoFailures 5 rfl).1,
    (Gomian.metrics_totals_without_window.1 Gomian.closedTwoFailures 5 rfl).2⟩

/-- C6: FailureRateThreshold(rate, minSamples).ShouldTrip returns false when
total < minSamples, and otherwise returns true iff failures/total ≥ rate
(exact rational arithmetic standing in for the float64 division); for
(1/2, 10) it is false whenever total < 10 and, at total = 10, true exactly
when failures ≥ 5. -/
theorem Gomian.failure_rate_threshold_should_trip :
    (∀ (rate : ℚ) (samples failures successes total window : Nat),
      (total < samples →
        (Gomian.FailureRateThreshold.mk rate samples).ShouldTrip failures successes total window
          = false)
      ∧ (samples ≤ total →
        ((Gomian.FailureRateThreshold.mk rate samples).ShouldTrip failures successes total window
            = true
          ↔ rate ≤ (failures : ℚ) / (total : ℚ))))
    ∧ (∀ (failures successes total window : Nat), total < 10 →
        (Gomian.FailureRateThreshold.mk (1/2) 10).ShouldTrip failures successes total window
          = false)
    ∧ (∀ (failures successes window : Nat),
        (Gomian.FailureRateThreshold.mk (1/2) 10).ShouldTrip failures successes 10 window
          = decide (5 ≤ failures)) := by
  have base : ∀ (rate : ℚ) (samples failures successes total window : Nat),
      (total < samples →
        (Gomian.FailureRateThreshold.mk rate samples).ShouldTrip failures successes total window
          = false)
      ∧ (samples ≤ total →
        ((Gomian.FailureRateThreshold.mk rate samples).ShouldTrip failures successes total window
            = true
          ↔ rate ≤ (failures : ℚ) / (total : ℚ))) := by
    intro rate samples failures successes total window
    constructor
    · intro h
      simp [Gomian.FailureRateThreshold.ShouldTrip, h]
    · intro h
      simp [Gomian.FailureRateThreshold.ShouldTrip, Nat.not_lt.mpr h]
  refine ⟨base, ?_, ?_⟩
  · intro failures successes total window h
    exact (base (1/2) 10 failures successes total window).1 h
  · intro failures successes window
    have hiff := (base (1/2) 10 failures successes 10 window).2 (le_refl 10)
    have harith : ((1 : ℚ)/2 ≤ (failures : ℚ) / ((10 : Nat) : ℚ)) ↔ 5 ≤ failures := by
      rw [le_div_iff₀ (by norm_num : (0:ℚ) < ((10 : Nat) : ℚ))]
      norm_num
    rcases Nat.lt_or_ge failures 5 with h5 | h5
    · have : ¬ ((1 : ℚ)/2 ≤ (failures : ℚ) / ((10 : Nat) : ℚ)) := by
        rw [harith]; omega
      have hne := (not_iff_not.mpr hiff).mpr this
      simp only [Bool.not_eq_true] at hne
      rw [hne]
      symm
      simpa using by omega
    · have : ((1 : ℚ)/2 ≤ (failures : ℚ) / ((10 : Nat) : ℚ)) := harith.mpr h5
      rw [hiff.mpr this]
      symm
      simpa using h5

/-- C6 witness: instantiated at (rate 1/2, minSamples 10) with total 3 (below
the minimum) and with failures 5 of total 10 (at the tripping boundary). -/
theorem Gomian.failure_rate_threshold_should_trip_witness :
    ((3 : Nat) < 10
      ∧ (Gomian.FailureRateThreshold.mk (1/2) 10).ShouldTrip 2 0 3 0 = false)
    ∧ (Gomian.FailureRateThreshold.mk (1/2) 10).ShouldTrip 5 0 10 0 = decide (5 ≤ 5) :=
  ⟨⟨by decide, Gomian.failure_rate_threshold_should_trip.2.1 2 0 3 0 (by decide)⟩,
    Gomian.failure_rate_threshold_should_trip.2.2 5 0 0⟩
namespace Gomian

lemma getD_le_sumProj (g : Bucket → Nat) (hg : g (Bucket.mk 0 0) = 0)
    (bs : List Bucket) (idx : Nat) :
    g (bs.getD idx (Bucket.mk 0 0)) ≤ (bs.map g).sum := by
  induction bs generalizing idx with
  | nil => simp [hg]
  | cons b rest ih =>
    cases idx with
    | zero => simp
    | succ k =>
      have h := ih k
      simp only [List.getD_cons_succ, List.map_cons, List.sum_cons]
      omega

lemma sumProj_set (g : Bucket → Nat) (bs : List Bucket) (idx : Nat) (v : Bucket)
    (h : idx < bs.length) :
    ((bs.set idx v).map g).sum + g (bs.getD idx (Bucket.mk 0 0))
      = (bs.map g).sum + g v := by
  induction bs generalizing idx with
  | nil => simp at h
  | cons b rest ih =>
    cases idx with
    | zero => simp; omega
    | succ k =>
      have h2 := ih k (by simpa using Nat.lt_of_succ_lt_succ h)
      simp only [List.set_cons_succ, List.getD_cons_succ, List.map_cons, List.sum_cons]
      omega

lemma getD_set_self (bs : List Bucket) (idx : Nat) :
    (bs.set idx (Bucket.mk 0 0)).getD idx (Bucket.mk 0 0) = Bucket.mk 0 0 := by
  induction bs generalizing idx with
  | nil => simp
  | cons b rest ih =>
    cases idx with
    | zero => simp
    | succ k => simpa using ih k

lemma getD_set_ne (bs : List Bucket) (idx j : Nat) (v : Bucket) (h : j ≠ idx) :
    (bs.set idx v).getD j (Bucket.mk 0 0) = bs.getD j (Bucket.mk 0 0) := by
  induction bs generalizing idx j with
  | nil => simp
  | cons b rest ih =>
    cases idx with
    | zero =>
      cases j with
      | zero => exact absurd rfl h
      | succ k => simp
    | succ m =>
      cases j with
      | zero => simp
      | succ k => simpa using ih m k (by omega)

lemma getD_mem (bs : List Bucket) (idx : Nat) (h : idx < bs.length) :
    bs.getD idx (Bucket.mk 0 0) ∈ bs := by
  induction bs generalizing idx with
  | nil => simp at h
  | cons b rest ih =>
    cases idx with
    | zero => simp
    | succ k =>
      simp only [List.getD_cons_succ]
      exact List.mem_cons_of_mem b (ih k (by simpa using Nat.lt_of_succ_lt_succ h))

end Gomian

namespace Gomian

lemma evictOne_buckets (rw : RollingWindow) (idx : Nat) :
    (rw.evictOne idx).buckets = rw.buckets.set idx (Bucket.mk 0 0) := rfl

lemma evictOne_numBuckets (rw : RollingWindow) (idx : Nat) :
    (rw.evictOne idx).numBuckets = rw.numBuckets := rfl

lemma Inv_evictOne (rw : RollingWindow) (h : rw.Inv) (idx : Nat) :
    (rw.evictOne idx).Inv := by
  obtain ⟨hlen, hn, hb, hreq, hfail, hper⟩ := h
  by_cases hidx : idx < rw.buckets.length
  · refine ⟨?_, hn, hb, ?_, ?_, ?_⟩
    · simpa [RollingWindow.evictOne] using hlen
    · have hs := sumProj_set Bucket.requests rw.buckets idx (Bucket.mk 0 0) hidx
      have hle := getD_le_sumProj Bucket.requests rfl rw.buckets idx
      simp only [RollingWindow.evictOne, sumRequests] at hs ⊢
      simp only [sumRequests] at hreq
      omega
    · have hs := sumProj_set Bucket.failures rw.buckets idx (Bucket.mk 0 0) hidx
      have hle := getD_le_sumProj Bucket.failures rfl rw.buckets idx
      simp only [RollingWindow.evictOne, sumFailures] at hs ⊢
      simp only [sumFailures] at hfail
      omega
    · intro b hb2
      simp only [RollingWindow.evictOne] at hb2
      rcases List.mem_or_eq_of_mem_set hb2 with hmem | rfl
      · exact hper b hmem
      · exact le_refl 0
  · have hset : rw.buckets.set idx (Bucket.mk 0 0) = rw.buckets :=
      List.set_eq_of_length_le (by omega)
    have hgd : rw.buckets.getD idx (Bucket.mk 0 0) = Bucket.mk 0 0 := by
      apply List.getD_eq_default
      omega
    refine ⟨?_, hn, hb, ?_, ?_, ?_⟩
    · simp only [RollingWindow.evictOne]
      rw [List.length_set]
      exact hlen
    · simp only [RollingWindow.evictOne]
      rw [hgd, hset]
      simp [hreq]
    · simp only [RollingWindow.evictOne]
      rw [hgd, hset]
      simp [hfail]
    · intro b hb2
      simp only [RollingWindow.evictOne] at hb2
      rw [hset] at hb2
      exact hper b hb2

lemma Inv_evictList (rw : RollingWindow) (h : rw.Inv) (L : List Nat) :
    (rw.evictList L).Inv := by
  induction L generalizing rw with
  | nil => exact h
  | cons idx rest ih => exact ih (rw.evictOne idx) (Inv_evictOne rw h idx)

lemma Inv_rotate (rw : RollingWindow) (h : rw.Inv) (now : Nat) :
    (rw.rotate now).Inv := by
  unfold RollingWindow.rotate
  by_cases hc : now - rw.lastRotation < rw.bucketSize
  · simpa [hc] using h
  · simp only [hc, if_false]
    have h2 := Inv_evictList rw h
      ((List.range (min ((now - rw.lastRotation) / rw.bucketSize) rw.numBuckets)).map
        (fun i => (i + 1) % rw.numBuckets))
    obtain ⟨a1, a2, a3, a4, a5, a6⟩ := h2
    exact ⟨a1, a2, a3, a4, a5, a6⟩

end Gomian

namespace Gomian

lemma Inv_bump_core (rw : RollingWindow) (h : rw.Inv) (dreq dfail : Nat)
    (hd : dfail ≤ dreq) :
    (({ rw with
        buckets := rw.buckets.set 0
          (Bucket.mk ((rw.buckets.getD 0 (Bucket.mk 0 0)).requests + dreq)
            ((rw.buckets.getD 0 (Bucket.mk 0 0)).failures + dfail))
        totalRequests := rw.totalRequests + dreq
        totalFailures := rw.totalFailures + dfail } : RollingWindow)).Inv := by
  obtain ⟨hlen, hn, hb, hreq, hfail, hper⟩ := h
  have hlt : 0 < rw.buckets.length := by omega
  refine ⟨?_, hn, hb, ?_, ?_, ?_⟩
  · rw [List.length_set]
    exact hlen
  · have hs := sumProj_set Bucket.requests rw.buckets 0
      (Bucket.mk ((rw.buckets.getD 0 (Bucket.mk 0 0)).requests + dreq)
        ((rw.buckets.getD 0 (Bucket.mk 0 0)).failures + dfail)) hlt
    dsimp only at hs
    simp only [sumRequests] at hreq hs ⊢
    omega
  · have hs := sumProj_set Bucket.failures rw.buckets 0
      (Bucket.mk ((rw.buckets.getD 0 (Bucket.mk 0 0)).requests + dreq)
        ((rw.buckets.getD 0 (Bucket.mk 0 0)).failures + dfail)) hlt
    dsimp only at hs
    simp only [sumFailures] at hfail hs ⊢
    omega
  · intro x hx
    rcases List.mem_or_eq_of_mem_set hx with hmem | rfl
    · exact hper x hmem
    · have hgd : (rw.buckets.getD 0 (Bucket.mk 0 0)).failures
          ≤ (rw.buckets.getD 0 (Bucket.mk 0 0)).requests :=
        hper (rw.buckets.getD 0 (Bucket.mk 0 0)) (getD_mem rw.buckets 0 hlt)
      dsimp only
      omega

lemma Inv_IncrementSuccess (rw : RollingWindow) (h : rw.Inv) (now : Nat) :
    (rw.IncrementSuccess now).Inv := by
  have h2 := Inv_rotate rw h now
  have h3 := Inv_bump_core (rw.rotate now) h2 1 0 (by omega)
  simpa [RollingWindow.IncrementSuccess] using h3

lemma Inv_IncrementFailure (rw : RollingWindow) (h : rw.Inv) (now : Nat) :
    (rw.IncrementFailure now).Inv := by
  have h2 := Inv_rotate rw h now
  have h3 := Inv_bump_core (rw.rotate now) h2 1 1 (by omega)
  simpa [RollingWindow.IncrementFailure] using h3

lemma Inv_Reset (rw : RollingWindow) (now : Nat) (h : rw.Inv) :
    (rw.Reset now).Inv := by
  obtain ⟨hlen, hn, hb, hreq, hfail, hper⟩ := h
  refine ⟨?_, hn, hb, ?_, ?_, ?_⟩
  · simpa [RollingWindow.Reset] using hlen
  · simp [RollingWindow.Reset, sumRequests, List.map_map, Function.comp]
  · simp [RollingWindow.Reset, sumFailures, List.map_map, Function.comp]
  · intro x hx
    simp only [RollingWindow.Reset, List.mem_map] at hx
    obtain ⟨y, hy, rfl⟩ := hx
    exact le_refl 0

lemma Inv_applyOp (rw : RollingWindow) (h : rw.Inv) (op : RWOp) :
    (rw.applyOp op).Inv := by
  cases op with
  | incSuccess now => exact Inv_IncrementSuccess rw h now
  | incFailure now => exact Inv_IncrementFailure rw h now
  | observe now => exact Inv_rotate rw h now
  | reset now => exact Inv_Reset rw now h

lemma Inv_run (rw : RollingWindow) (h : rw.Inv) (ops : List RWOp) :
    (rw.run ops).Inv := by
  induction ops generalizing rw with
  | nil => exact h
  | cons op rest ih => exact ih (rw.applyOp op) (Inv_applyOp rw h op)

lemma bucketSize_clamp_pos (bs : Nat) : 0 < (if bs < millisecond then millisecond else bs) := by
  split
  · simp [millisecond]
  · simp only [millisecond] at *
    omega

lemma Inv_NewRollingWindow (windowSize : Nat) (numBuckets : Int) (now : Nat) :
    (NewRollingWindow windowSize numBuckets now).Inv := by
  have hn : 0 < (if numBuckets ≤ 0 then 10 else numBuckets.toNat) := by
    split
    · omega
    · omega
  refine ⟨?_, ?_, ?_, ?_, ?_, ?_⟩
  · simp [NewRollingWindow]
  · simpa [NewRollingWindow] using hn
  · exact bucketSize_clamp_pos _
  · simp [NewRollingWindow, sumRequests, List.map_replicate]
  · simp [NewRollingWindow, sumFailures, List.map_replicate]
  · intro b hb
    simp only [NewRollingWindow, List.mem_replicate] at hb
    rw [hb.2]

end Gomian

namespace Gomian

lemma evictList_numBuckets (rw : RollingWindow) (L : List Nat) :
    (rw.evictList L).numBuckets = rw.numBuckets := by
  induction L generalizing rw with
  | nil => rfl
  | cons idx rest ih => exact ih (rw.evictOne idx)

lemma evictList_getD_zero (rw : RollingWindow) (L : List Nat) (j : Nat)
    (hj : j ∈ L ∨ rw.buckets.getD j (Bucket.mk 0 0) = Bucket.mk 0 0) :
    (rw.evictList L).buckets.getD j (Bucket.mk 0 0) = Bucket.mk 0 0 := by
  induction L generalizing rw with
  | nil =>
    rcases hj with hmem | hzero
    · simp at hmem
    · exact hzero
  | cons idx rest ih =>
    apply ih
    rcases hj with hmem | hzero
    · rcases List.mem_cons.mp hmem with rfl | hrest
      · right
        exact getD_set_self rw.buckets j
      · left
        exact hrest
    · by_cases hje : j = idx
      · subst hje
        right
        exact getD_set_self rw.buckets j
      · right
        rw [show (rw.evictOne idx).buckets = rw.buckets.set idx (Bucket.mk 0 0) from rfl,
          getD_set_ne rw.buckets idx j (Bucket.mk 0 0) hje]
        exact hzero

lemma mem_evict_indices (n j : Nat) (hn : 0 < n) (hj : j < n) :
    j ∈ (List.range n).map (fun i => (i + 1) % n) := by
  apply List.mem_map.mpr
  refine ⟨(j + n - 1) % n, List.mem_range.mpr (Nat.mod_lt _ hn), ?_⟩
  rcases Nat.eq_zero_or_pos j with rfl | hpos
  · have h0 : 0 + n - 1 = n - 1 := by omega
    have h1 : (n - 1) % n = n - 1 := Nat.mod_eq_of_lt (by omega)
    rw [h0, h1, show n - 1 + 1 = n from by omega, Nat.mod_self]
  · have h1 : j + n - 1 = (j - 1) + n := by omega
    rw [h1, Nat.add_mod_right, Nat.mod_eq_of_lt (show j - 1 < n from by omega),
      show j - 1 + 1 = j from by omega]
    exact Nat.mod_eq_of_lt hj

lemma sum_zero_of_getD_zero (bs : List Bucket)
    (h : ∀ j, j < bs.length → bs.getD j (Bucket.mk 0 0) = Bucket.mk 0 0) :
    sumRequests bs = 0 ∧ sumFailures bs = 0 := by
  induction bs with
  | nil => simp [sumRequests, sumFailures]
  | cons b rest ih =>
    have hb := h 0 (by simp)
    simp only [List.getD_cons_zero] at hb
    have hrest := ih (fun j hj => by
      have := h (j + 1) (by simp only [List.length_cons]; omega)
      simpa using this)
    simp only [sumRequests, sumFailures, List.map_cons, List.sum_cons] at hrest ⊢
    rw [hb]
    dsimp only
    omega

lemma rotate_full_zero (rw : RollingWindow) (h : rw.Inv) (now : Nat)
    (hgap : rw.lastRotation + rw.numBuckets * rw.bucketSize ≤ now) :
    (rw.rotate now).totalRequests = 0 ∧ (rw.rotate now).totalFailures = 0 := by
  obtain ⟨hlen, hn, hb, hreq, hfail, hper⟩ := h
  have helapsed : rw.numBuckets * rw.bucketSize ≤ now - rw.lastRotation := by omega
  have hnotlt : ¬ (now - rw.lastRotation < rw.bucketSize) := by
    have : rw.bucketSize ≤ rw.numBuckets * rw.bucketSize := Nat.le_mul_of_pos_left _ hn
    omega
  have hdiv : rw.numBuckets ≤ (now - rw.lastRotation) / rw.bucketSize :=
    (Nat.le_div_iff_mul_le hb).mpr helapsed
  have hmin : min ((now - rw.lastRotation) / rw.bucketSize) rw.numBuckets = rw.numBuckets :=
    Nat.min_eq_right hdiv
  have hrw1inv := Inv_evictList rw ⟨hlen, hn, hb, hreq, hfail, hper⟩
    ((List.range rw.numBuckets).map (fun i => (i + 1) % rw.numBuckets))
  have hzero : ∀ j, j < (rw.evictList
      ((List.range rw.numBuckets).map (fun i => (i + 1) % rw.numBuckets))).buckets.length →
      (rw.evictList ((List.range rw.numBuckets).map
        (fun i => (i + 1) % rw.numBuckets))).buckets.getD j (Bucket.mk 0 0) = Bucket.mk 0 0 := by
    intro j hjlen
    apply evictList_getD_zero
    left
    apply mem_evict_indices rw.numBuckets j hn
    rw [hrw1inv.1, evictList_numBuckets] at hjlen
    exact hjlen
  have hsums := sum_zero_of_getD_zero _ hzero
  unfold RollingWindow.rotate
  simp only [hnotlt, if_false, hmin]
  constructor
  · rw [hrw1inv.2.2.2.1]
    exact hsums.1
  · rw [hrw1inv.2.2.2.2.1]
    exact hsums.2

lemma Counts_zero_of_gap (rw : RollingWindow) (h : rw.Inv) (now : Nat)
    (hgap : rw.lastRotation + rw.numBuckets * rw.bucketSize ≤ now) :
    (rw.Counts now).2 = (0, 0) := by
  have := rotate_full_zero rw h now hgap
  simp [RollingWindow.Counts, this.1, this.2]

end Gomian

namespace Gomian

lemma sumFailures_le_sumRequests (bs : List Bucket)
    (h : ∀ b ∈ bs, b.failures ≤ b.requests) : sumFailures bs ≤ sumRequests bs := by
  induction bs with
  | nil => simp [sumRequests, sumFailures]
  | cons b rest ih =>
    have hb := h b (List.mem_cons_self b rest)
    have hrest := ih (fun x hx => h x (List.mem_cons_of_mem b hx))
    simp only [sumRequests, sumFailures, List.map_cons, List.sum_cons] at hrest ⊢
    omega

end Gomian

/-- C7 (amended): every RollingWindow state reachable from NewRollingWindow by
any operation sequence satisfies totalRequests ≥ totalFailures ≥ 0; every
bucket's counts are bounded by the running totals, so the eviction
subtractions in rotate never underflow; and whenever at least
numBuckets·bucketSize elapses past the rotation anchor with no intervening
operation, Counts returns (0, 0).  When the bucket size is not clamped up to
the 1 ms minimum, numBuckets·bucketSize ≤ windowSize, recovering the
full-window decay; with a clamped bucket size the full window alone is not
enough (see the counterexample). -/
theorem Gomian.rolling_window_invariant_and_decay (windowSize : Nat) (numBuckets : Int)
    (t0 : Nat) (ops : List Gomian.RWOp) (rw : Gomian.RollingWindow)
    (hrw : rw = (Gomian.NewRollingWindow windowSize numBuckets t0).run ops) :
    (0 ≤ rw.totalFailures ∧ rw.totalFailures ≤ rw.totalRequests)
    ∧ (∀ idx : Nat,
        (rw.buckets.getD idx (Gomian.Bucket.mk 0 0)).requests ≤ rw.totalRequests
        ∧ (rw.buckets.getD idx (Gomian.Bucket.mk 0 0)).failures ≤ rw.totalFailures)
    ∧ (∀ now : Nat,
        rw.lastRotation + rw.numBuckets * rw.bucketSize ≤ now →
        (rw.Counts now).2 = (0, 0)) := by
  subst hrw
  have hinv := Gomian.Inv_run (Gomian.NewRollingWindow windowSize numBuckets t0)
    (Gomian.Inv_NewRollingWindow windowSize numBuckets t0) ops
  obtain ⟨hlen, hn, hb, hreq, hfail, hper⟩ := hinv
  refine ⟨⟨Nat.zero_le _, ?_⟩, ?_, ?_⟩
  · rw [hreq, hfail]
    exact Gomian.sumFailures_le_sumRequests _ hper
  · intro idx
    constructor
    · rw [hreq]
      exact Gomian.getD_le_sumProj Gomian.Bucket.requests rfl _ idx
    · rw [hfail]
      exact Gomian.getD_le_sumProj Gomian.Bucket.failures rfl _ idx
  · intro now hgap
    exact Gomian.Counts_zero_of_gap _ ⟨hlen, hn, hb, hreq, hfail, hper⟩ now hgap

/-- C7 witness: a 10 ms window with 10 buckets (bucket size exactly 1 ms, not
clamped) holding one failure recorded at time 0: the invariant holds and a
Counts call one full window (= ten bucket durations) later returns (0, 0). -/
theorem Gomian.rolling_window_invariant_and_decay_witness :
    (((Gomian.NewRollingWindow 10000000 10 0).run [Gomian.RWOp.incFailure 0]).totalFailures
      ≤ ((Gomian.NewRollingWindow 10000000 10 0).run [Gomian.RWOp.incFailure 0]).totalRequests)
    ∧ ((Gomian.NewRollingWindow 10000000 10 0).run [Gomian.RWOp.incFailure 0]).lastRotation
        + ((Gomian.NewRollingWindow 10000000 10 0).run [Gomian.RWOp.incFailure 0]).numBuckets
          * ((Gomian.NewRollingWindow 10000000 10 0).run [Gomian.RWOp.incFailure 0]).bucketSize
        ≤ 10000000
    ∧ (((Gomian.NewRollingWindow 10000000 10 0).run [Gomian.RWOp.incFailure 0]).Counts
        10000000).2 = (0, 0) :=
  ⟨(Gomian.rolling_window_invariant_and_decay 10000000 10 0 [Gomian.RWOp.incFailure 0] _
      rfl).1.2,
    by decide,
    (Gomian.rolling_window_invariant_and_decay 10000000 10 0 [Gomian.RWOp.incFailure 0] _
      rfl).2.2 10000000 (by decide)⟩

/-- C7 counterexample: on a 5 ms window with 10 buckets the bucket size is
clamped to 1 ms, and a Counts call a full window duration (5 ms) after the
single recorded failure rotates only 5 of the 10 buckets — none of them
bucket 0, where the event lives — so Counts returns (1, 1), not (0, 0). -/
theorem Gomian.rolling_window_decay_counterexample :
    Gomian.clampedWindow.windowSize = 5000000
    ∧ Gomian.clampedWindow.lastRotation = 0
    ∧ (Gomian.clampedWindow.Counts 5000000).2 = (1, 1)
    ∧ (Gomian.clampedWindow.Counts 5000000).2 ≠ (0, 0) := by
  refine ⟨rfl, rfl, by decide, by decide⟩

/-- C2: evaluation of the rotation defect.  In `staleWindow` the only event
(one failure) was recorded at time 0 into bucket 0; the window is 100 ms, yet
a Counts call at 150 ms — one and a half windows after the event, with
intermediate observations at 50 ms and 100 ms having each rotated one
bucket — still returns totals (1, 1): every partial rotation evicts starting
at index 1 while writes always target index 0, so the stale event is never
evicted and the totals overcount beyond the window. -/
theorem Gomian.rolling_window_stale_event_retained :
    Gomian.staleWindow.windowSize = 100000000
    ∧ (Gomian.staleWindow.Counts 150000000).2 = (1, 1)
    ∧ (Gomian.staleWindow.Counts 150000000).2 ≠ (0, 0) := by
  refine ⟨rfl, by decide, by decide⟩
